import Mathlib

/-!
A shallow embedding of `src/skt/misc.py` (module `skt.misc`) and a verification
of the specified behaviour of its three utilities:

* `safe_popen` — run an external command, wait for it, decode its captured
  stdout/stderr byte streams with utf-8, return `(stdout, stderr, returncode)`;
* `retry_safe_popen` — the body that calls `safe_popen` and raises
  `RuntimeError` when a trigger string occurs in stderr, wrapped by the
  decorator `retrying_on_exception(RuntimeError)` imported from
  `skt.retrying` (that module is not part of the sources; its retry driver is
  modelled from the specification);
* `is_task_waived` — scan the descendant `param` elements of an XML test
  result node for `name="cki_waived"` / `value="true"`.

The embedding makes the interaction with the operating system explicit: one
process invocation is summarised by a `LaunchOutcome` (either the launch
failed, or the process ran and produced optional stdout/stderr byte streams
and a return code), and the utf-8 decoder is a parameter `decode` applied to
non-empty byte streams only, exactly as the source guards it.  Python
exceptions are modelled with `Except`.
-/

/-- ASCII case folding: the effect of Python `str.lower()` on the ASCII
strings this module compares (`'cki_waived'`, `'true'`). -/
def pyLower (s : String) : String := ⟨s.data.map Char.toLower⟩

/-- Does `needle` occur contiguously in one of the tail suffixes of `hay`? -/
def charsContain : List Char → List Char → Bool
  | _, [] => false
  | needle, c :: t => needle.isPrefixOf (c :: t) || charsContain needle t

/-- Python's substring test `needle in hay`: `needle` occurs contiguously in
`hay` (literal, case-sensitive). -/
def strIn (needle hay : String) : Bool :=
  needle.data.isPrefixOf hay.data || charsContain needle.data hay.data

/-- The Python exceptions the embedded functions can raise:
`RuntimeError` (the retry signal of `retry_safe_popen`), `OSError` (a process
launch failure escaping `subprocess.Popen`), and `AttributeError`
(`None.lower()` in `is_task_waived`). -/
inductive PyExc : Type where
  | runtimeError : PyExc
  | osError (msg : String) : PyExc
  | attributeError : PyExc
deriving DecidableEq, Repr

/-- The `(stdout, stderr, returncode)` triple both popen helpers return. -/
structure CommandResult : Type where
  stdout : String
  stderr : String
  returncode : Int
deriving DecidableEq, Repr

/-- Equality of modelled Python outcomes (normal return or exception) is
decidable, so concrete runs can be checked by evaluation. -/
instance {ε α : Type} [DecidableEq ε] [DecidableEq α] :
    DecidableEq (Except ε α) := fun x y =>
  match x, y with
  | .error e, .error f =>
      if h : e = f then .isTrue (congrArg Except.error h)
      else .isFalse fun hh => h (Except.error.inj hh)
  | .error _, .ok _ => .isFalse fun hh => Except.noConfusion hh
  | .ok _, .error _ => .isFalse fun hh => Except.noConfusion hh
  | .ok a, .ok b =>
      if h : a = b then .isTrue (congrArg Except.ok h)
      else .isFalse fun hh => h (Except.ok.inj hh)

/-- What the operating system does for one
`subprocess.Popen(*args, **kwargs)` + `communicate(stdin_data)` round:
either the launch itself fails (Python raises, e.g. a missing executable), or
the process runs to completion with captured stdout/stderr byte streams
(`none` models a stream that was not captured, `some bs` a captured stream
with byte content `bs`) and an exit code. -/
inductive LaunchOutcome : Type where
  | failure (msg : String) : LaunchOutcome
  | success (stdoutBytes stderrBytes : Option (List Nat)) (returncode : Int) : LaunchOutcome

/-- The expression `stream.decode('utf-8') if stream else ''` of `safe_popen`
(misc.py lines 82-83): a stream that is `None` or empty bytes gives `''`
without invoking the decoder; a non-empty byte string is decoded. -/
def decodeStream (decode : List Nat → String) : Option (List Nat) → String
  | none => ""
  | some bs => if bs.isEmpty then "" else decode bs

/-- `safe_popen` (misc.py lines 62-85): launch the process, wait for it via
`communicate`, decode each stream, return the triple.  An exception raised by
`Popen` itself is not caught and propagates. -/
def safe_popen (decode : List Nat → String) : LaunchOutcome → Except PyExc CommandResult
  | .failure msg => .error (.osError msg)
  | .success outB errB rc =>
      .ok ⟨decodeStream decode outB, decodeStream decode errB, rc⟩

/-- The scan over `err_exc_strings` in `retry_safe_popen` (misc.py lines
54-57): `RuntimeError` is raised iff stderr is truthy (non-empty) and some
trigger string occurs in it (`if stderr and err_str in stderr`). -/
def triggersRetry (err_exc_strings : List String) (stderr : String) : Bool :=
  err_exc_strings.any fun e => !stderr.isEmpty && strIn e stderr

/-- The undecorated body of `retry_safe_popen` (misc.py lines 51-59): call
`safe_popen` (whose launch failures propagate), then raise `RuntimeError` when
a trigger string occurs in the non-empty stderr, else return the triple. -/
def retry_safe_popen_body (decode : List Nat → String) (err_exc_strings : List String)
    (o : LaunchOutcome) : Except PyExc CommandResult :=
  match safe_popen decode o with
  | .error e => .error e
  | .ok res =>
      if triggersRetry err_exc_strings res.stderr then .error .runtimeError
      else .ok res

/-- Modelled from the spec: the retry driver of the decorator
`retrying_on_exception(RuntimeError)` from `skt/retrying.py`, a module that is
not among the sources.  Per spec section 4.2 the decorated call makes at most
3 total invocation attempts; a retryable signal (the body's `RuntimeError`)
with attempts remaining leads, after the fixed delay, to a re-invocation; on
the last allowed attempt the obtained `CommandResult` is returned as-is even
when the condition still triggers, and no exception is raised; any other
exception (e.g. a launch failure) propagates unmodified.  `attempts i` is the
operating-system behaviour of the `i`-th invocation, `idx` the index of the
attempt about to be made, the fuel the number of attempts still allowed; the
`Nat` paired with the result counts the invocations performed.  The fuel-0
case is unreachable from `retry_safe_popen` (fuel starts at 3). -/
def retry_aux (decode : List Nat → String) (err_exc_strings : List String)
    (attempts : Nat → LaunchOutcome) : Nat → Nat → Except PyExc (CommandResult × Nat)
  | _, 0 => .error .runtimeError
  | idx, 1 =>
      match safe_popen decode (attempts idx) with
      | .error e => .error e
      | .ok res => .ok (res, idx + 1)
  | idx, fuel + 2 =>
      match safe_popen decode (attempts idx) with
      | .error e => .error e
      | .ok res =>
          if triggersRetry err_exc_strings res.stderr then
            retry_aux decode err_exc_strings attempts (idx + 1) (fuel + 1)
          else .ok (res, idx + 1)

/-- The attempt bound of the decorator: 3 total attempts (spec section 4.2). -/
def retryMaxAttempts : Nat := 3

/-- The decorated `retry_safe_popen`: the retry driver applied to the body,
starting at attempt 0 with 3 attempts allowed. -/
def retry_safe_popen (decode : List Nat → String) (err_exc_strings : List String)
    (attempts : Nat → LaunchOutcome) : Except PyExc (CommandResult × Nat) :=
  retry_aux decode err_exc_strings attempts 0 retryMaxAttempts

/-- A parsed XML element as `xml.etree.ElementTree` presents it to
`is_task_waived`: a tag, an attribute map (association list with distinct
keys; lookups compare keys exactly), and a list of child elements. -/
inductive XmlNode : Type where
  | mk (tag : String) (attrib : List (String × String)) (children : List XmlNode) : XmlNode

/-- The tag of an element. -/
def XmlNode.tag : XmlNode → String
  | .mk t _ _ => t

/-- The attribute map of an element. -/
def XmlNode.attrib : XmlNode → List (String × String)
  | .mk _ a _ => a

/-- The child elements of an element. -/
def XmlNode.children : XmlNode → List XmlNode
  | .mk _ _ c => c

/-- All elements of a forest together with their proper descendants, in
document (preorder) order. -/
def descendantsL : List XmlNode → List XmlNode
  | [] => []
  | XmlNode.mk t a cs :: rest =>
      XmlNode.mk t a cs :: (descendantsL cs ++ descendantsL rest)

/-- All proper descendants of an element (itself excluded), document order. -/
def XmlNode.descendants (n : XmlNode) : List XmlNode := descendantsL n.children

/-- `task.findall('.//param')` (misc.py line 96): every descendant element at
any depth whose tag is exactly `param`, in document order. -/
def findallParam (task : XmlNode) : List XmlNode :=
  task.descendants.filter fun p => p.tag == "param"

/-- Python's `attrib.get(key)`: the value stored under exactly this key, or
`None`.  Key comparison is plain string equality (case-sensitive). -/
def attribGet (a : List (String × String)) (key : String) : Option String :=
  (a.find? fun kv => kv.1 == key).map fun kv => kv.2

/-- The loop of `is_task_waived` (misc.py lines 96-103) over the `param`
list.  When `attrib.get` returns `None`, Python evaluates `None.lower()`,
which raises `AttributeError`; the `except ValueError` clause around the
comparison cannot catch it (none of the involved operations can raise a
`ValueError`), so the `AttributeError` escapes the function.  The conjunction
is evaluated left to right with short-circuiting, exactly as in the source:
the `value` attribute is only consulted when the lowered `name` attribute
equals `cki_waived`. -/
def waivedScan : List XmlNode → Except PyExc Bool
  | [] => .ok false
  | p :: rest =>
      match attribGet p.attrib "name" with
      | none => .error .attributeError
      | some nm =>
          if pyLower nm == "cki_waived" then
            match attribGet p.attrib "value" with
            | none => .error .attributeError
            | some v => if pyLower v == "true" then .ok true else waivedScan rest
          else waivedScan rest

/-- `is_task_waived` (misc.py lines 88-105). -/
def is_task_waived (task : XmlNode) : Except PyExc Bool :=
  waivedScan (findallParam task)

/-- A `param` element carrying a `name` attribute that lowers to
`cki_waived` and a `value` attribute that lowers to `true`: the match the
waiver check looks for. -/
def paramMatchesB (p : XmlNode) : Bool :=
  match attribGet p.attrib "name", attribGet p.attrib "value" with
  | some nm, some v => pyLower nm == "cki_waived" && pyLower v == "true"
  | _, _ => false

/-- A `param` element on which the scan of `is_task_waived` cannot hit a
`None.lower()`: its `name` attribute is present and, whenever that name
lowers to `cki_waived`, its `value` attribute is present as well. -/
def paramWellFormed (p : XmlNode) : Bool :=
  match attribGet p.attrib "name" with
  | none => false
  | some nm => !(pyLower nm == "cki_waived") || (attribGet p.attrib "value").isSome

/-- The retry signal in propositional form: stderr is non-empty and some
trigger string occurs in it. -/
theorem triggersRetry_iff (errs : List String) (s : String) :
    triggersRetry errs s = true ↔ s ≠ "" ∧ ∃ e ∈ errs, strIn e s = true := by
  unfold triggersRetry
  rw [List.any_eq_true]
  constructor
  · rintro ⟨e, he, hb⟩
    rw [Bool.and_eq_true, Bool.not_eq_true'] at hb
    refine ⟨fun hs => ?_, e, he, hb.2⟩
    rw [hs] at hb
    exact absurd hb.1 (by decide)
  · rintro ⟨hs, e, he, hin⟩
    refine ⟨e, he, ?_⟩
    rw [Bool.and_eq_true, Bool.not_eq_true']
    refine ⟨?_, hin⟩
    cases hb : s.isEmpty with
    | false => rfl
    | true => exact absurd ((String.isEmpty_iff s).mp hb) hs

/-- The retry driver's attempt counter never exceeds what the fuel allows. -/
theorem retry_aux_count (decode : List Nat → String) (errs : List String)
    (attempts : Nat → LaunchOutcome) :
    ∀ fuel idx res n, retry_aux decode errs attempts idx fuel = .ok (res, n) →
      n ≤ idx + fuel := by
  intro fuel
  induction fuel with
  | zero =>
    intro idx res n h
    unfold retry_aux at h
    exact absurd h (by simp)
  | succ f ihf =>
    intro idx res n h
    match f with
    | 0 =>
      unfold retry_aux at h
      cases hs : safe_popen decode (attempts idx) with
      | error e => rw [hs] at h; simp at h
      | ok r =>
        rw [hs] at h
        simp only [Except.ok.injEq, Prod.mk.injEq] at h
        omega
    | g + 1 =>
      unfold retry_aux at h
      cases hs : safe_popen decode (attempts idx) with
      | error e => rw [hs] at h; simp at h
      | ok r =>
        rw [hs] at h
        simp only [] at h
        cases ht : triggersRetry errs r.stderr with
        | true =>
          simp only [ht, if_true] at h
          have := ihf (idx + 1) res n h
          omega
        | false =>
          simp only [ht, Bool.false_eq_true, if_false, Except.ok.injEq,
            Prod.mk.injEq] at h
          omega

/-- If the scan of `is_task_waived` returns `true`, some scanned param
matches. -/
theorem waivedScan_eq_ok_true (l : List XmlNode) (h : waivedScan l = .ok true) :
    ∃ p ∈ l, paramMatchesB p = true := by
  induction l with
  | nil => exact absurd h (by simp [waivedScan])
  | cons p rest ih =>
    unfold waivedScan at h
    cases hn : attribGet p.attrib "name" with
    | none => rw [hn] at h; simp at h
    | some nm =>
      rw [hn] at h
      simp only [] at h
      cases hcw : (pyLower nm == "cki_waived") with
      | false =>
        simp only [hcw, Bool.false_eq_true, if_false] at h
        obtain ⟨q, hq, hm⟩ := ih h
        exact ⟨q, List.mem_cons_of_mem p hq, hm⟩
      | true =>
        simp only [hcw, if_true] at h
        cases hv : attribGet p.attrib "value" with
        | none => rw [hv] at h; simp at h
        | some v =>
          rw [hv] at h
          simp only [] at h
          cases htv : (pyLower v == "true") with
          | false =>
            simp only [htv, Bool.false_eq_true, if_false] at h
            obtain ⟨q, hq, hm⟩ := ih h
            exact ⟨q, List.mem_cons_of_mem p hq, hm⟩
          | true =>
            refine ⟨p, List.mem_cons_self p rest, ?_⟩
            unfold paramMatchesB
            rw [hn, hv]
            simp only [hcw, htv]
            rfl

/-- On a list of well-formed params the scan returns normally and computes
exactly the existence of a matching param. -/
theorem waivedScan_wf (l : List XmlNode) (h : ∀ p ∈ l, paramWellFormed p = true) :
    waivedScan l = .ok (l.any paramMatchesB) := by
  induction l with
  | nil => rfl
  | cons p rest ih =>
    have hp : paramWellFormed p = true := h p (List.mem_cons_self p rest)
    have ihh : waivedScan rest = .ok (rest.any paramMatchesB) :=
      ih fun q hq => h q (List.mem_cons_of_mem p hq)
    rw [List.any_cons]
    unfold waivedScan
    unfold paramWellFormed at hp
    cases hn : attribGet p.attrib "name" with
    | none => rw [hn] at hp; simp at hp
    | some nm =>
      rw [hn] at hp
      simp only [] at hp
      simp only []
      cases hcw : (pyLower nm == "cki_waived") with
      | false =>
        have hpm : paramMatchesB p = false := by
          unfold paramMatchesB
          rw [hn]
          cases attribGet p.attrib "value" <;> simp [hcw]
        simp only [hcw, Bool.false_eq_true, if_false, hpm, Bool.false_or]
        exact ihh
      | true =>
        simp only [hcw, Bool.not_true, Bool.false_or] at hp
        cases hv : attribGet p.attrib "value" with
        | none => rw [hv] at hp; simp at hp
        | some v =>
          have hpm : paramMatchesB p = (pyLower v == "true") := by
            unfold paramMatchesB
            rw [hn, hv]
            simp [hcw]
          simp only [hcw, if_true]
          simp only [hpm]
          cases htv : (pyLower v == "true") with
          | true => simp [htv]
          | false => simp only [htv, Bool.false_eq_true, if_false, Bool.false_or]; exact ihh

/-- `attribGet` only reports entries stored under exactly the requested
key. -/
theorem attribGet_mem (a : List (String × String)) (key v : String)
    (h : attribGet a key = some v) : (key, v) ∈ a := by
  unfold attribGet at h
  cases hf : a.find? (fun kv => kv.1 == key) with
  | none => rw [hf] at h; simp at h
  | some kv =>
    rw [hf] at h
    simp only [Option.map_some', Option.some.injEq] at h
    have hmem := List.mem_of_find?_eq_some hf
    have hkey := List.find?_some hf
    rw [beq_iff_eq] at hkey
    obtain ⟨k1, v1⟩ := kv
    simp only at hkey h
    rw [← hkey, ← h]
    exact hmem

/-- C1, counterexample: with trigger-substring list `[""]` and captured
stderr `""`, the trigger is a literal substring of the stderr text, yet the
body of `retry_safe_popen` signals no retry - it returns the triple
unchanged instead of raising.  The claim's "signals a retry iff some trigger
substring is a substring of stderr" therefore fails: the source additionally
requires stderr to be truthy, i.e. non-empty (`if stderr and err_str in
stderr`, misc.py line 55). -/
theorem retry_body_empty_stderr_cx :
    (∃ e ∈ ([""] : List String), strIn e "" = true) ∧
    retry_safe_popen_body (fun _ => "") [""] (.success none none 0) =
      .ok ⟨"", "", 0⟩ := by
  constructor
  · exact ⟨"", by decide, by decide⟩
  · decide

/-- C1 (amended): for every trigger-substring list and every launch outcome
that yields a `CommandResult`, the body of `retry_safe_popen` signals a
retry (raises `RuntimeError`) iff the captured stderr text is non-empty and
at least one trigger substring is a literal, case-sensitive substring of it;
when that condition fails, the `(stdout, stderr, returncode)` triple is
returned immediately, unchanged. -/
theorem retry_body_signals_iff (decode : List Nat → String)
    (errs : List String) (o : LaunchOutcome) (res : CommandResult)
    (h : safe_popen decode o = .ok res) :
    (retry_safe_popen_body decode errs o = .error .runtimeError ↔
      res.stderr ≠ "" ∧ ∃ e ∈ errs, strIn e res.stderr = true) ∧
    (¬ (res.stderr ≠ "" ∧ ∃ e ∈ errs, strIn e res.stderr = true) →
      retry_safe_popen_body decode errs o = .ok res) := by
  unfold retry_safe_popen_body
  rw [h]
  simp only []
  rw [← triggersRetry_iff]
  cases ht : triggersRetry errs res.stderr with
  | true => simp [ht]
  | false => simp [ht]

/-- Witness for `retry_body_signals_iff`: a concrete invocation whose stderr
is empty and whose trigger list is `["refused"]` - no retry is signalled and
the triple comes back unchanged. -/
theorem retry_body_signals_iff_witness :
    (retry_safe_popen_body (fun _ => "") ["refused"] (.success none none 7) =
        .error .runtimeError ↔
      (CommandResult.mk "" "" 7).stderr ≠ "" ∧
        ∃ e ∈ (["refused"] : List String),
          strIn e (CommandResult.mk "" "" 7).stderr = true) ∧
    (¬ ((CommandResult.mk "" "" 7).stderr ≠ "" ∧
        ∃ e ∈ (["refused"] : List String),
          strIn e (CommandResult.mk "" "" 7).stderr = true) →
      retry_safe_popen_body (fun _ => "") ["refused"] (.success none none 7) =
        .ok (CommandResult.mk "" "" 7)) :=
  retry_body_signals_iff (fun _ => "") ["refused"] (.success none none 7)
    (CommandResult.mk "" "" 7) rfl

/-- C6: every text field of a `safe_popen` result is a decoded string (the
result type carries `String`s, never raw bytes and never a null): a
successful launch returns `.ok` with both fields produced by `decodeStream`,
and - for every conceivable decoder - a stream that was not captured
(`none`) or produced zero bytes (`some []`) yields exactly `""`; the decoder
is not consulted on zero bytes. -/
theorem safe_popen_empty_stream_fields (decode : List Nat → String)
    (outB errB : Option (List Nat)) (rc : Int) :
    (safe_popen decode (.success outB errB rc) =
      .ok ⟨decodeStream decode outB, decodeStream decode errB, rc⟩) ∧
    (outB = none ∨ outB = some [] → decodeStream decode outB = "") ∧
    (errB = none ∨ errB = some [] → decodeStream decode errB = "") := by
  refine ⟨rfl, ?_, ?_⟩ <;> rintro (rfl | rfl) <;> rfl

/-- Witness for `safe_popen_empty_stream_fields`: a decoder that would
return `"BAD"` on any input is never consulted - zero-byte stdout and
uncaptured stderr both come back as `""`. -/
theorem safe_popen_empty_stream_fields_witness :
    (safe_popen (fun _ => "BAD") (.success (some []) none 0) =
      .ok ⟨"", "", 0⟩) ∧
    decodeStream (fun _ => "BAD") (some []) = "" ∧
    decodeStream (fun _ => "BAD") none = "" :=
  ⟨(safe_popen_empty_stream_fields (fun _ => "BAD") (some []) none 0).1,
   (safe_popen_empty_stream_fields (fun _ => "BAD") (some []) none 0).2.1
     (Or.inr rfl),
   (safe_popen_empty_stream_fields (fun _ => "BAD") (some []) none 0).2.2
     (Or.inl rfl)⟩

/-- C7: with an empty trigger-substring list `retry_safe_popen` is
equivalent to a single `safe_popen` call: exactly one invocation attempt is
made and its result is returned whatever the stderr content is (no retry). -/
theorem retry_empty_triggers_single_attempt (decode : List Nat → String)
    (attempts : Nat → LaunchOutcome) :
    retry_safe_popen decode [] attempts =
      (safe_popen decode (attempts 0)).map fun res => (res, 1) := by
  unfold retry_safe_popen retryMaxAttempts retry_aux
  cases safe_popen decode (attempts 0) with
  | error e => rfl
  | ok res => rfl

/-- C2: the decorated `retry_safe_popen` makes at most 3 total invocation
attempts, and when every attempt succeeds with a stderr that triggers a
retry (a persistently matching condition), exactly 3 attempts are made and
the third attempt's `(stdout, stderr, returncode)` triple is returned as a
normal result - no exception reaches the caller. -/
theorem retry_at_most_three_attempts (decode : List Nat → String)
    (errs : List String) (attempts : Nat → LaunchOutcome) :
    (∀ res n, retry_safe_popen decode errs attempts = .ok (res, n) → n ≤ 3) ∧
    ((∀ i, i < 3 → ∃ res, safe_popen decode (attempts i) = .ok res ∧
        triggersRetry errs res.stderr = true) →
      ∃ res, safe_popen decode (attempts 2) = .ok res ∧
        retry_safe_popen decode errs attempts = .ok (res, 3)) := by
  constructor
  · intro res n h
    exact retry_aux_count decode errs attempts retryMaxAttempts 0 res n h
  · intro h
    obtain ⟨r0, hs0, ht0⟩ := h 0 (by omega)
    obtain ⟨r1, hs1, ht1⟩ := h 1 (by omega)
    obtain ⟨r2, hs2, ht2⟩ := h 2 (by omega)
    refine ⟨r2, hs2, ?_⟩
    unfold retry_safe_popen retryMaxAttempts
    unfold retry_aux
    rw [hs0]
    simp only []
    simp only [ht0, if_true]
    show retry_aux decode errs attempts 1 2 = .ok (r2, 3)
    unfold retry_aux
    rw [hs1]
    simp only []
    simp only [ht1, if_true]
    show retry_aux decode errs attempts 2 1 = .ok (r2, 3)
    unfold retry_aux
    rw [hs2]

/-- Witness for `retry_at_most_three_attempts`: a command whose stderr is
always `"E"` with trigger list `["E"]` - the bound holds and all three
attempts are used, the final triple coming back normally. -/
theorem retry_at_most_three_attempts_witness :
    (3 : Nat) ≤ 3 ∧
    (∃ res, safe_popen (fun _ => "E") (.success none (some [69]) 1) = .ok res ∧
      retry_safe_popen (fun _ => "E") ["E"]
        (fun _ => .success none (some [69]) 1) = .ok (res, 3)) :=
  ⟨(retry_at_most_three_attempts (fun _ => "E") ["E"]
      (fun _ => .success none (some [69]) 1)).1 ⟨"", "E", 1⟩ 3 (by decide),
   (retry_at_most_three_attempts (fun _ => "E") ["E"]
      (fun _ => .success none (some [69]) 1)).2
     (fun i _ => ⟨⟨"", "E", 1⟩, rfl, by decide⟩)⟩

/-- C8: a launch failure (e.g. a missing executable) propagates to the
caller unmodified: `safe_popen` lets it escape, and the retry wrapper - at
whichever attempt it occurs - neither retries nor suppresses it (only
`RuntimeError`, the matched-stderr signal, is retried). -/
theorem launch_failure_propagates :
    (∀ (decode : List Nat → String) (msg : String),
      safe_popen decode (.failure msg) = .error (.osError msg)) ∧
    (∀ (decode : List Nat → String) (errs : List String)
       (attempts : Nat → LaunchOutcome) (idx fuel : Nat) (msg : String),
      attempts idx = .failure msg →
      retry_aux decode errs attempts idx (fuel + 1) = .error (.osError msg)) ∧
    (∀ (decode : List Nat → String) (errs : List String)
       (attempts : Nat → LaunchOutcome) (msg : String),
      attempts 0 = .failure msg →
      retry_safe_popen decode errs attempts = .error (.osError msg)) := by
  refine ⟨fun decode msg => rfl, ?_, ?_⟩
  · intro decode errs attempts idx fuel msg h
    match fuel with
    | 0 => unfold retry_aux; rw [h]; rfl
    | f + 1 => unfold retry_aux; rw [h]; rfl
  · intro decode errs attempts msg h
    unfold retry_safe_popen retryMaxAttempts
    unfold retry_aux
    rw [h]
    rfl

/-- Witness for `launch_failure_propagates`: a missing executable makes
every layer return the launch error unchanged. -/
theorem launch_failure_propagates_witness :
    safe_popen (fun _ => "") (.failure "No such file or directory") =
      .error (.osError "No such file or directory") ∧
    retry_aux (fun _ => "") ["x"] (fun _ => .failure "No such file or directory")
      1 (1 + 1) = .error (.osError "No such file or directory") ∧
    retry_safe_popen (fun _ => "") ["x"]
      (fun _ => .failure "No such file or directory") =
      .error (.osError "No such file or directory") :=
  ⟨launch_failure_propagates.1 (fun _ => "") "No such file or directory",
   launch_failure_propagates.2.1 (fun _ => "") ["x"]
     (fun _ => .failure "No such file or directory") 1 1
     "No such file or directory" rfl,
   launch_failure_propagates.2.2 (fun _ => "") ["x"]
     (fun _ => .failure "No such file or directory")
     "No such file or directory" rfl⟩

/-- C9: the retry decision depends only on the captured stderr and the
trigger list.  First: two attempt streams that agree on the stderr bytes of
every attempt (stdout bytes and exit codes arbitrary) lead to the same
number of attempts, with final results agreeing on stderr.  Second: whatever
the exit code - in particular a nonzero one - an attempt whose stderr
matches no trigger substring is returned immediately after one invocation. -/
theorem retry_depends_only_on_stderr :
    (∀ (decode : List Nat → String) (errs : List String)
       (errS : Nat → Option (List Nat)) (out1 out2 : Nat → Option (List Nat))
       (rc1 rc2 : Nat → Int),
      ∃ n r1 r2,
        retry_safe_popen decode errs
          (fun i => .success (out1 i) (errS i) (rc1 i)) = .ok (r1, n) ∧
        retry_safe_popen decode errs
          (fun i => .success (out2 i) (errS i) (rc2 i)) = .ok (r2, n) ∧
        r1.stderr = r2.stderr) ∧
    (∀ (decode : List Nat → String) (errs : List String)
       (attempts : Nat → LaunchOutcome) (outB errB : Option (List Nat)) (rc : Int),
      attempts 0 = .success outB errB rc →
      (∀ e ∈ errs, strIn e (decodeStream decode errB) = false) →
      retry_safe_popen decode errs attempts =
        .ok (⟨decodeStream decode outB, decodeStream decode errB, rc⟩, 1)) := by
  constructor
  · intro decode errs errS out1 out2 rc1 rc2
    cases t0 : triggersRetry errs (decodeStream decode (errS 0)) with
    | false =>
      exact ⟨1, ⟨decodeStream decode (out1 0), decodeStream decode (errS 0), rc1 0⟩,
        ⟨decodeStream decode (out2 0), decodeStream decode (errS 0), rc2 0⟩,
        by simp [retry_safe_popen, retryMaxAttempts, retry_aux, safe_popen, t0],
        by simp [retry_safe_popen, retryMaxAttempts, retry_aux, safe_popen, t0],
        rfl⟩
    | true =>
      cases t1 : triggersRetry errs (decodeStream decode (errS 1)) with
      | false =>
        exact ⟨2, ⟨decodeStream decode (out1 1), decodeStream decode (errS 1), rc1 1⟩,
          ⟨decodeStream decode (out2 1), decodeStream decode (errS 1), rc2 1⟩,
          by simp [retry_safe_popen, retryMaxAttempts, retry_aux, safe_popen, t0, t1],
          by simp [retry_safe_popen, retryMaxAttempts, retry_aux, safe_popen, t0, t1],
          rfl⟩
      | true =>
        exact ⟨3, ⟨decodeStream decode (out1 2), decodeStream decode (errS 2), rc1 2⟩,
          ⟨decodeStream decode (out2 2), decodeStream decode (errS 2), rc2 2⟩,
          by simp [retry_safe_popen, retryMaxAttempts, retry_aux, safe_popen, t0, t1],
          by simp [retry_safe_popen, retryMaxAttempts, retry_aux, safe_popen, t0, t1],
          rfl⟩
  · intro decode errs attempts outB errB rc h hno
    have ht : triggersRetry errs (decodeStream decode errB) = false := by
      cases ht : triggersRetry errs (decodeStream decode errB) with
      | false => rfl
      | true =>
        obtain ⟨hne, e, he, hin⟩ := (triggersRetry_iff errs _).mp ht
        rw [hno e he] at hin
        exact absurd hin (by decide)
    unfold retry_safe_popen retryMaxAttempts
    unfold retry_aux
    rw [h]
    simp [safe_popen, ht]

/-- Witness for `retry_depends_only_on_stderr`: two runs differing only in
stdout and exit code take the same single attempt, and a nonzero exit code
with non-matching stderr is returned after one attempt. -/
theorem retry_depends_only_on_stderr_witness :
    (∃ n r1 r2,
        retry_safe_popen (fun _ => "A") ["z"]
          (fun _ => .success (some [65]) none 7) = .ok (r1, n) ∧
        retry_safe_popen (fun _ => "A") ["z"]
          (fun _ => .success none none 9) = .ok (r2, n) ∧
        r1.stderr = r2.stderr) ∧
    retry_safe_popen (fun _ => "A") ["z"] (fun _ => .success none none 5) =
      .ok (⟨"", "", 5⟩, 1) :=
  ⟨retry_depends_only_on_stderr.1 (fun _ => "A") ["z"] (fun _ => none)
      (fun _ => some [65]) (fun _ => none) (fun _ => 7) (fun _ => 9),
   retry_depends_only_on_stderr.2 (fun _ => "A") ["z"]
      (fun _ => .success none none 5) none none 5 rfl (by decide)⟩

/-- Scanning a filtered list succeeds exactly where the unfiltered scan
succeeds on elements that pass the filter. -/
theorem any_filter_eq {α : Type} (l : List α) (p q : α → Bool) :
    (l.filter p).any q = l.any fun a => p a && q a := by
  induction l with
  | nil => rfl
  | cons a t ih => cases hp : p a <;> simp [List.filter_cons, hp, ih]

/-- C3, counterexample: a task whose only descendant `param` has no
attributes.  No matching descendant exists, yet `is_task_waived` does not
return `false`: the `name` lookup yields `None`, `None.lower()` raises
`AttributeError`, and the `except ValueError` clause does not catch it. -/
theorem is_task_waived_malformed_cx :
    (¬ ∃ p ∈ (XmlNode.mk "task" [] [XmlNode.mk "param" [] []]).descendants,
        p.tag = "param" ∧ paramMatchesB p = true) ∧
    is_task_waived (XmlNode.mk "task" [] [XmlNode.mk "param" [] []]) ≠
      .ok false := by
  have hd : (XmlNode.mk "task" [] [XmlNode.mk "param" [] []]).descendants =
      [XmlNode.mk "param" [] []] := by
    simp [XmlNode.descendants, XmlNode.children, descendantsL]
  constructor
  · rw [hd]; decide
  · unfold is_task_waived findallParam
    rw [hd]
    decide

/-- C3 (amended): for every task node all of whose descendant `param`
elements are well formed (each has a `name` attribute and, when that name
lowers to `cki_waived`, also a `value` attribute), `is_task_waived` returns
normally: `true` exactly when some descendant element with tag `param` - at
any depth - carries a `name` attribute equal to `cki_waived` up to letter
case and a `value` attribute equal to `true` up to letter case, and `false`
when no such descendant exists, in particular for a node without `param`
descendants.  Without the proviso the scan can instead raise
`AttributeError`, as the counterexample shows. -/
theorem is_task_waived_iff_of_wellformed (task : XmlNode)
    (h : ∀ p ∈ findallParam task, paramWellFormed p = true) :
    is_task_waived task =
      .ok (task.descendants.any fun p => p.tag == "param" && paramMatchesB p) := by
  unfold is_task_waived
  rw [waivedScan_wf (findallParam task) h]
  unfold findallParam
  rw [any_filter_eq]

/-- Witness for `is_task_waived_iff_of_wellformed`: the spec's scenario node
with one param `name="CKI_WAIVED"`, `value="TRUE"` - well formed, and the
computed verdict is `true`. -/
theorem is_task_waived_iff_of_wellformed_witness :
    (∀ p ∈ findallParam (XmlNode.mk "task" []
        [XmlNode.mk "param" [("name", "CKI_WAIVED"), ("value", "TRUE")] []]),
      paramWellFormed p = true) ∧
    is_task_waived (XmlNode.mk "task" []
        [XmlNode.mk "param" [("name", "CKI_WAIVED"), ("value", "TRUE")] []]) =
      .ok ((XmlNode.mk "task" []
          [XmlNode.mk "param" [("name", "CKI_WAIVED"), ("value", "TRUE")] []]).descendants.any
        fun p => p.tag == "param" && paramMatchesB p) := by
  have hd : (XmlNode.mk "task" []
      [XmlNode.mk "param" [("name", "CKI_WAIVED"), ("value", "TRUE")] []]).descendants =
      [XmlNode.mk "param" [("name", "CKI_WAIVED"), ("value", "TRUE")] []] := by
    simp [XmlNode.descendants, XmlNode.children, descendantsL]
  have hwf : ∀ p ∈ findallParam (XmlNode.mk "task" []
      [XmlNode.mk "param" [("name", "CKI_WAIVED"), ("value", "TRUE")] []]),
      paramWellFormed p = true := by
    unfold findallParam
    rw [hd]
    decide
  exact ⟨hwf, is_task_waived_iff_of_wellformed _ hwf⟩

/-- C4 (code bug): a `param` sub-node with an absent attribute makes
`is_task_waived` raise instead of skipping it.  Here the first param has no
attributes at all: `attrib.get('name')` returns `None`, `None.lower()`
raises `AttributeError`, and the `except ValueError` clause (misc.py line
102) cannot catch it - no operation in the guarded expression can raise a
`ValueError`, so the tolerance of malformed sub-nodes promised by the
docstring's plain-boolean contract and by the spec is dead code.  The scan
aborts: the fully waived param right after the malformed one is never
reached, and the exception escapes to the caller. -/
theorem is_task_waived_malformed_raises :
    is_task_waived (XmlNode.mk "task" [] [XmlNode.mk "param" [] [],
      XmlNode.mk "param" [("name", "cki_waived"), ("value", "true")] []]) =
      .error .attributeError := by
  have hd : (XmlNode.mk "task" [] [XmlNode.mk "param" [] [],
      XmlNode.mk "param" [("name", "cki_waived"), ("value", "true")] []]).descendants =
      [XmlNode.mk "param" [] [],
       XmlNode.mk "param" [("name", "cki_waived"), ("value", "true")] []] := by
    simp [XmlNode.descendants, XmlNode.children, descendantsL]
  unfold is_task_waived findallParam
  rw [hd]
  decide

/-- C5, counterexample: the attribute keys are looked up case-sensitively.
A param storing the waiver under upper-case keys `NAME`/`VALUE` does not
make `is_task_waived` return `true` - the lookup of the exact key `name`
yields `None` and the function raises `AttributeError` instead. -/
theorem is_task_waived_upper_keys_cx :
    is_task_waived (XmlNode.mk "task" []
      [XmlNode.mk "param" [("NAME", "cki_waived"), ("VALUE", "true")] []]) ≠
      .ok true := by
  have hd : (XmlNode.mk "task" []
      [XmlNode.mk "param" [("NAME", "cki_waived"), ("VALUE", "true")] []]).descendants =
      [XmlNode.mk "param" [("NAME", "cki_waived"), ("VALUE", "true")] []] := by
    simp [XmlNode.descendants, XmlNode.children, descendantsL]
  unfold is_task_waived findallParam
  rw [hd]
  decide

/-- C5 (amended): the match on the attribute names themselves is
case-sensitive, not case-insensitive: only the exact keys `name` and `value`
are consulted (`.lower()` is applied to the attribute values, never to the
keys).  The upper-case-keys param makes the function raise `AttributeError`
(the `name` lookup is absent), and a `true` verdict requires a descendant
param storing, under the exact key `name`, a value lowering to `cki_waived`
and, under the exact key `value`, a value lowering to `true`. -/
theorem is_task_waived_exact_attr_keys :
    (is_task_waived (XmlNode.mk "task" []
        [XmlNode.mk "param" [("NAME", "cki_waived"), ("VALUE", "true")] []]) =
      .error .attributeError) ∧
    (∀ task : XmlNode, is_task_waived task = .ok true →
      ∃ p ∈ findallParam task, ∃ nm v : String,
        ("name", nm) ∈ p.attrib ∧ pyLower nm = "cki_waived" ∧
        ("value", v) ∈ p.attrib ∧ pyLower v = "true") := by
  constructor
  · have hd : (XmlNode.mk "task" []
        [XmlNode.mk "param" [("NAME", "cki_waived"), ("VALUE", "true")] []]).descendants =
        [XmlNode.mk "param" [("NAME", "cki_waived"), ("VALUE", "true")] []] := by
      simp [XmlNode.descendants, XmlNode.children, descendantsL]
    unfold is_task_waived findallParam
    rw [hd]
    decide
  · intro task h
    unfold is_task_waived at h
    obtain ⟨p, hp, hm⟩ := waivedScan_eq_ok_true _ h
    refine ⟨p, hp, ?_⟩
    unfold paramMatchesB at hm
    cases hn : attribGet p.attrib "name" with
    | none => rw [hn] at hm; simp at hm
    | some nm =>
      cases hv : attribGet p.attrib "value" with
      | none => rw [hn, hv] at hm; simp at hm
      | some v =>
        rw [hn, hv] at hm
        simp only [Bool.and_eq_true, beq_iff_eq] at hm
        exact ⟨nm, v, attribGet_mem p.attrib "name" nm hn, hm.1,
          attribGet_mem p.attrib "value" v hv, hm.2⟩

/-- Witness for `is_task_waived_exact_attr_keys`: a task waived through a
mixed-case value under the exact lower-case keys - the verdict is `true` and
the exact-key entries are exhibited. -/
theorem is_task_waived_exact_attr_keys_witness :
    (is_task_waived (XmlNode.mk "task" []
        [XmlNode.mk "param" [("NAME", "cki_waived"), ("VALUE", "true")] []]) =
      .error .attributeError) ∧
    (∃ p ∈ findallParam (XmlNode.mk "job" []
        [XmlNode.mk "param" [("name", "CKI_waived"), ("value", "True")] []]),
      ∃ nm v : String,
        ("name", nm) ∈ p.attrib ∧ pyLower nm = "cki_waived" ∧
        ("value", v) ∈ p.attrib ∧ pyLower v = "true") := by
  have hd : (XmlNode.mk "job" []
      [XmlNode.mk "param" [("name", "CKI_waived"), ("value", "True")] []]).descendants =
      [XmlNode.mk "param" [("name", "CKI_waived"), ("value", "True")] []] := by
    simp [XmlNode.descendants, XmlNode.children, descendantsL]
  have hok : is_task_waived (XmlNode.mk "job" []
      [XmlNode.mk "param" [("name", "CKI_waived"), ("value", "True")] []]) = .ok true := by
    unfold is_task_waived findallParam
    rw [hd]
    decide
  exact ⟨is_task_waived_exact_attr_keys.1,
    is_task_waived_exact_attr_keys.2 _ hok⟩

/-- C10, counterexample: matching `name`/`value` attributes on a `recipe`
element (not a `param`) next to an attribute-less `param`.  The claim says
the function returns `false` for such a node; instead the malformed `param`
makes it raise `AttributeError` - the `recipe` element is indeed never
examined, but the scan aborts rather than returning `false`. -/
theorem is_task_waived_nonparam_tag_cx :
    ((XmlNode.mk "recipe" [("name", "cki_waived"), ("value", "true")] []).tag ≠
        "param" ∧
      paramMatchesB
        (XmlNode.mk "recipe" [("name", "cki_waived"), ("value", "true")] []) = true) ∧
    is_task_waived (XmlNode.mk "task" [] [XmlNode.mk "param" [] [],
      XmlNode.mk "recipe" [("name", "cki_waived"), ("value", "true")] []]) ≠
      .ok false := by
  refine ⟨by decide, ?_⟩
  have hd : (XmlNode.mk "task" [] [XmlNode.mk "param" [] [],
      XmlNode.mk "recipe" [("name", "cki_waived"), ("value", "true")] []]).descendants =
      [XmlNode.mk "param" [] [],
       XmlNode.mk "recipe" [("name", "cki_waived"), ("value", "true")] []] := by
    simp [XmlNode.descendants, XmlNode.children, descendantsL]
  unfold is_task_waived findallParam
  rw [hd]
  decide

/-- C10 (amended): `is_task_waived` examines only descendant elements whose
tag is exactly `param`: a `true` verdict requires a matching descendant
tagged `param`, and a node whose matching attributes sit only on descendants
with other tags yields `false` provided its `param` descendants are well
formed (a malformed `param` descendant instead aborts the scan with
`AttributeError`, as the counterexample shows). -/
theorem is_task_waived_only_param_tags :
    (∀ task : XmlNode, is_task_waived task = .ok true →
      ∃ p ∈ task.descendants, p.tag = "param" ∧ paramMatchesB p = true) ∧
    (∀ task : XmlNode,
      (∀ p ∈ findallParam task, paramWellFormed p = true) →
      (∀ p ∈ task.descendants, p.tag = "param" → paramMatchesB p = false) →
      is_task_waived task = .ok false) := by
  constructor
  · intro task h
    unfold is_task_waived at h
    obtain ⟨p, hp, hm⟩ := waivedScan_eq_ok_true _ h
    unfold findallParam at hp
    rw [List.mem_filter] at hp
    exact ⟨p, hp.1, by rw [← beq_iff_eq]; exact hp.2, hm⟩
  · intro task hwf hnone
    unfold is_task_waived
    rw [waivedScan_wf (findallParam task) hwf]
    congr 1
    rw [List.any_eq_false]
    intro p hp
    unfold findallParam at hp
    rw [List.mem_filter] at hp
    rw [Bool.not_eq_true]
    exact hnone p hp.1 (by rw [← beq_iff_eq]; exact hp.2)

/-- Witness for `is_task_waived_only_param_tags`: a waived job exhibits its
matching `param` descendant, and a task whose only matching attributes sit
on a `recipe` element (with no `param` descendants at all) comes back
`false`. -/
theorem is_task_waived_only_param_tags_witness :
    (∃ p ∈ (XmlNode.mk "job" []
        [XmlNode.mk "param" [("name", "cki_waived"), ("value", "TRUE")] []]).descendants,
      p.tag = "param" ∧ paramMatchesB p = true) ∧
    is_task_waived (XmlNode.mk "task" []
      [XmlNode.mk "recipe" [("name", "cki_waived"), ("value", "true")] []]) =
      .ok false := by
  have hd1 : (XmlNode.mk "job" []
      [XmlNode.mk "param" [("name", "cki_waived"), ("value", "TRUE")] []]).descendants =
      [XmlNode.mk "param" [("name", "cki_waived"), ("value", "TRUE")] []] := by
    simp [XmlNode.descendants, XmlNode.children, descendantsL]
  have hok : is_task_waived (XmlNode.mk "job" []
      [XmlNode.mk "param" [("name", "cki_waived"), ("value", "TRUE")] []]) = .ok true := by
    unfold is_task_waived findallParam
    rw [hd1]
    decide
  have hd2 : (XmlNode.mk "task" []
      [XmlNode.mk "recipe" [("name", "cki_waived"), ("value", "true")] []]).descendants =
      [XmlNode.mk "recipe" [("name", "cki_waived"), ("value", "true")] []] := by
    simp [XmlNode.descendants, XmlNode.children, descendantsL]
  refine ⟨is_task_waived_only_param_tags.1 _ hok, ?_⟩
  refine is_task_waived_only_param_tags.2 _ ?_ ?_
  · unfold findallParam
    rw [hd2]
    decide
  · rw [hd2]
    decide
